import Mathlib

/-
Verification of the descriptor registration and evaluation engine of
mordred (src/mordred/_base/calculator.py).

The embedding models descriptor units as finite trees: a descriptor carries
its canonical name, its requirement flags, a calculation behavior, and its
dependency map (an ordered association of parameter names to either a
dependency descriptor or None).  Registry state (Calculator.__init__,
Calculator._register_one) and per-structure evaluation state
(Calculator._calculate, Calculator._calculate_one) are threaded explicitly.
Exceptions are modelled with Except; the number of times each descriptor's
calculate() method runs is recorded in the evaluation state so that
"calculate is invoked exactly once / never" claims are expressible.
-/

namespace Mordred

/-- Payload carried by exceptions raised during a calculation.
MultipleFragments is the condition from mordred.error used at
calculator.py line 147; user errors stand for arbitrary other payloads. -/
inductive ErrKind where
  | multipleFragments
  | user (n : Nat)
deriving DecidableEq, Repr

/-- Behavior of a descriptor's calculate() method once invoked: return a
value, raise a MissingValueException, or raise some other exception. -/
inductive CalcBehavior where
  | ret (v : Int)
  | raiseMissing (e : ErrKind)
  | raiseErr (e : ErrKind)
deriving DecidableEq, Repr

mutual
/-- A descriptor unit: canonical name (str(desc)), the requirement flags
explicit_hydrogens / kekulize / require_3D / require_connected read by
calculator.py, the calculate() behavior, and the dependency map
(desc.dependencies(), an ordered mapping whose values are descriptors or
None). -/
inductive Descriptor where
  | mk (name : String) (explicitHydrogens kekulize require3D requireConnected : Bool)
       (behavior : CalcBehavior) (deps : DepList)
deriving DecidableEq, Repr

/-- The ordered dependency map of a descriptor: each entry is a parameter
name with either a dependency descriptor or None. -/
inductive DepList where
  | nil
  | consNone (nm : String) (rest : DepList)
  | consSome (nm : String) (d : Descriptor) (rest : DepList)
deriving DecidableEq, Repr
end

def Descriptor.name : Descriptor → String
  | .mk nm _ _ _ _ _ _ => nm

def Descriptor.explicitHydrogens : Descriptor → Bool
  | .mk _ eh _ _ _ _ _ => eh

def Descriptor.kekulize : Descriptor → Bool
  | .mk _ _ kek _ _ _ _ => kek

def Descriptor.require3D : Descriptor → Bool
  | .mk _ _ _ r3 _ _ _ => r3

def Descriptor.requireConnected : Descriptor → Bool
  | .mk _ _ _ _ rc _ _ => rc

def Descriptor.behavior : Descriptor → CalcBehavior
  | .mk _ _ _ _ _ beh _ => beh

def Descriptor.deps : Descriptor → DepList
  | .mk _ _ _ _ _ _ deps => deps

mutual
/-- closureAny p d: whether p holds of d or of some descriptor transitively
reachable from d through its dependency map (the dependency closure). -/
def closureAny (p : Descriptor → Bool) : Descriptor → Bool
  | .mk nm eh kek r3 rc beh deps =>
    p (.mk nm eh kek r3 rc beh deps) || closureAnyDeps p deps

def closureAnyDeps (p : Descriptor → Bool) : DepList → Bool
  | .nil => false
  | .consNone _ rest => closureAnyDeps p rest
  | .consSome _ d rest => closureAny p d || closureAnyDeps p rest
end

/-! ## Registry state (Calculator.__init__ lines 47-56, _register_one lines 85-107) -/

/-- A Python set of booleans (Calculator._explicit_hydrogens and
Calculator._kekulizes are set() objects holding booleans), characterized by
which of the two booleans are members. -/
structure BoolSet where
  hasTrue : Bool
  hasFalse : Bool
deriving DecidableEq, Repr

/-- set.add(bool(b)) on a set of booleans. -/
def BoolSet.add (s : BoolSet) (b : Bool) : BoolSet :=
  if b then { s with hasTrue := true } else { s with hasFalse := true }

/-- The empty set(). -/
def BoolSet.empty : BoolSet := ⟨false, false⟩

/-- Registry-side state of a Calculator: the ordered _descriptors list, the
_name_dict keyed by str(desc), and the aggregate requirement state
_explicit_hydrogens, _kekulizes (sets of booleans) and _require_3D. -/
structure CalcState where
  descriptors : List Descriptor
  name_dict : List (String × Descriptor)
  explicit_hydrogens : BoolSet
  kekulizes : BoolSet
  require_3D : Bool
deriving DecidableEq, Repr

/-- Lookup in _name_dict (dict.get by canonical name). -/
def lookupName (nm : String) : List (String × Descriptor) → Option Descriptor
  | [] => none
  | (k, d) :: rest => if k = nm then some d else lookupName nm rest

/-- The configuration error raised by _register_one (line 104): registering
a second descriptor under an already-used canonical name. -/
inductive RegError where
  | duplicatedDescriptorName (new old : Descriptor)
deriving DecidableEq, Repr

/-- Registry state after Calculator.__init__ lines 48-53, before any
registration: empty descriptor list, empty name dict, empty flag sets,
_require_3D = False. -/
def initCalcState : CalcState :=
  { descriptors := [], name_dict := [],
    explicit_hydrogens := .empty, kekulizes := .empty, require_3D := false }

mutual
/-- Calculator._register_one (lines 85-107).  If ignore_3D and the unit
requires 3D, return silently.  Otherwise fold the unit's flags into the
aggregate state, recursively register each dependency descriptor with
check_only=True (and ignore_3D left at its default False, line 98), and
finally, unless check_only, raise DuplicatedDescriptorName on a name
collision or append the unit to _name_dict and _descriptors. -/
def registerOne : Descriptor → Bool → Bool → CalcState → Except RegError CalcState
  | .mk nm eh kek r3 rc beh deps, check_only, ignore_3D, s =>
    let d : Descriptor := .mk nm eh kek r3 rc beh deps
    if ignore_3D && r3 then .ok s
    else
    let s1 : CalcState :=
      { s with explicit_hydrogens := s.explicit_hydrogens.add eh,
               kekulizes := s.kekulizes.add kek,
               require_3D := s.require_3D || r3 }
    match registerDeps deps s1 with
    | .error e => .error e
    | .ok s2 =>
      if check_only then .ok s2
      else
        match lookupName d.name s2.name_dict with
        | some old => .error (.duplicatedDescriptorName d old)
        | none => .ok { s2 with name_dict := s2.name_dict ++ [(d.name, d)],
                                descriptors := s2.descriptors ++ [d] }

/-- The loop at _register_one lines 96-98: each value of the dependency map
that is a Descriptor is registered with check_only=True, in order. -/
def registerDeps (l : DepList) (s : CalcState) : Except RegError CalcState :=
  match l with
  | .nil => .ok s
  | .consNone _ rest => registerDeps rest s
  | .consSome _ dep rest =>
    match registerOne dep true false s with
    | .error e => .error e
    | .ok s1 => registerDeps rest s1
end

/-- A sequence of top-level registrations: Calculator.register with an
iterable of descriptor instances performs registerOne with check_only=False
and the given ignore_3D option on each element in order (lines 109-135). -/
def runRegs : List (Descriptor × Bool) → CalcState → Except RegError CalcState
  | [], s => .ok s
  | (d, ig) :: rest, s =>
    match registerOne d false ig s with
    | .error e => .error e
    | .ok s1 => runRegs rest s1

/-! ## Evaluation (Calculator._calculate_one lines 137-162, _calculate lines 174-185) -/

/-- An exception in flight: MissingValueException carrying its .error
payload, or any other exception. -/
inductive Exc where
  | missingValue (error : ErrKind)
  | generic (error : ErrKind)
deriving DecidableEq, Repr

/-- Per-structure evaluation state: the memoization dict self._cache, the
diagnostic stack of the Context (Modelled from the spec: Context.add_stack
pushes a unit, Context.reset clears the stack, Context.get_stack reads it;
the Context class itself is outside calculator.py), the set of descriptor
objects currently carrying a _context attribute (line 143 sets it, line 185
deletes it), and, as observable instrumentation, how many times each
descriptor's calculate() has run. -/
structure EvalState where
  cache : List (Descriptor × Int)
  stack : List Descriptor
  contexts : List Descriptor
  counts : List (Descriptor × Nat)
deriving DecidableEq, Repr

/-- self._cache lookup (desc in self._cache / self._cache[desc]). -/
def cacheLookup (c : List (Descriptor × Int)) (d : Descriptor) : Option Int :=
  match c with
  | [] => none
  | (k, v) :: rest => if k = d then some v else cacheLookup rest d

/-- Number of times d.calculate() has run so far. -/
def countOf (cs : List (Descriptor × Nat)) (d : Descriptor) : Nat :=
  match cs with
  | [] => 0
  | (k, n) :: rest => if k = d then n else countOf rest d

/-- Record one more invocation of d.calculate(). -/
def bumpCount (cs : List (Descriptor × Nat)) (d : Descriptor) : List (Descriptor × Nat) :=
  match cs with
  | [] => [(d, 1)]
  | (k, n) :: rest => if k = d then (k, n + 1) :: rest else (k, n) :: bumpCount rest d

/-- desc._context = cxt: the descriptor object now carries a context
attribute (membership in the set of attached descriptors). -/
def insertCtx (l : List Descriptor) (d : Descriptor) : List Descriptor :=
  if d ∈ l then l else l ++ [d]

/-- del desc._context (guarded by hasattr, line 184-185). -/
def eraseCtx (l : List Descriptor) (d : Descriptor) : List Descriptor :=
  l.filter (fun x => x ≠ d)

/-- Descriptor.fail.  Modelled from the spec: the Descriptor base class is
outside calculator.py; the spec says a unit failing its single-fragment
precondition is failed "with a multiple fragments condition (a specific,
recognizable failure kind)" which the evaluator converts like a
missing-value condition, so fail raises a MissingValueException carrying
the given payload. -/
def descFail (e : ErrKind) : Except Exc Int := .error (.missingValue e)

/-- Lines 141-144 of _calculate_one, in order: if reset, clear the
diagnostic stack (cxt.reset()); attach the context to the descriptor object
(desc._context = cxt); push the descriptor onto the diagnostic stack
(cxt.add_stack(desc)). -/
def pushState (d : Descriptor) (reset : Bool) (s : EvalState) : EvalState :=
  let s1 := if reset then { s with stack := [] } else s
  let s2 := { s1 with contexts := insertCtx s1.contexts d }
  { s2 with stack := s2.stack ++ [d] }

mutual
/-- Calculator._calculate_one (lines 137-162) for a structure with nFrags
fragments.  Cache hit returns immediately (line 138-139).  Otherwise: if
reset, clear the diagnostic stack (line 141-142); attach the context to the
descriptor object (line 143); push the descriptor on the diagnostic stack
(line 144); if the unit requires a connected structure and nFrags is not 1,
fail with MultipleFragments (lines 146-147); resolve the dependency map in
order (lines 149-153); invoke calculate (line 155); store the result in the
cache (line 160).  The _debug branch (lines 157-158) is dead in this scope:
_debug is set False in __init__ and never set True in calculator.py. -/
def calculateOne : Nat → Descriptor → Bool → EvalState → Except Exc Int × EvalState
  | nFrags, .mk nm eh kek r3 rc beh deps, reset, s =>
    let d : Descriptor := .mk nm eh kek r3 rc beh deps
    match cacheLookup s.cache d with
    | some v => (.ok v, s)
    | none =>
      let s3 := pushState d reset s
      if rc = true ∧ nFrags ≠ 1 then
        (descFail .multipleFragments, s3)
      else
        match calculateDeps nFrags deps s3 with
        | (.error e, s4) => (.error e, s4)
        | (.ok _args, s4) =>
          let s5 := { s4 with counts := bumpCount s4.counts d }
          match beh with
          | .ret v => (.ok v, { s5 with cache := s5.cache ++ [(d, v)] })
          | .raiseMissing e => (.error (.missingValue e), s5)
          | .raiseErr e => (.error (.generic e), s5)

/-- The args dict comprehension (lines 149-153): dependency-map entries are
resolved in order; a None value maps to None without recursion, a
descriptor value is resolved recursively with reset=False; the first
exception propagates. -/
def calculateDeps (nFrags : Nat) (l : DepList) (s : EvalState) :
    Except Exc (List (String × Option Int)) × EvalState :=
  match l with
  | .nil => (.ok [], s)
  | .consNone nm rest =>
    match calculateDeps nFrags rest s with
    | (.ok args, s1) => (.ok ((nm, none) :: args), s1)
    | (.error e, s1) => (.error e, s1)
  | .consSome nm dep rest =>
    match calculateOne nFrags dep false s with
    | (.error e, s1) => (.error e, s1)
    | (.ok v, s1) =>
      match calculateDeps nFrags rest s1 with
      | (.ok args, s2) => (.ok ((nm, some v) :: args), s2)
      | (.error e, s2) => (.error e, s2)
end

/-- A per-descriptor Result yielded by Calculator._calculate: a plain
value, or Missing(e.error, stack) for a MissingValueException, or
Error(e, stack) for any other exception. -/
inductive CalcResult where
  | value (v : Int)
  | missing (e : ErrKind) (stack : List Descriptor)
  | error (e : ErrKind) (stack : List Descriptor)
deriving DecidableEq, Repr

/-- The conversion performed by the try/except in _calculate (lines
177-182): a normal return is yielded as the value, a MissingValueException
becomes Missing carrying desc._context.get_stack(), any other exception
becomes Error carrying the stack. -/
def toResult (out : Except Exc Int) (stack : List Descriptor) : CalcResult :=
  match out with
  | .ok v => .value v
  | .error (.missingValue e) => .missing e stack
  | .error (.generic e) => .error e stack

/-- The loop of Calculator._calculate (lines 176-185): for each registered
descriptor in order, resolve it with reset=True, convert the outcome to a
Result, and finally delete the descriptor's _context attribute. -/
def calcLoop (nFrags : Nat) : List Descriptor → EvalState → List CalcResult × EvalState
  | [], s => ([], s)
  | d :: rest, s =>
    let r := calculateOne nFrags d true s
    let res := toResult r.1 r.2.stack
    let s2 := { r.2 with contexts := eraseCtx r.2.contexts d }
    let rs := calcLoop nFrags rest s2
    (res :: rs.1, rs.2)

/-- Calculator state that persists across structures: the _cache attribute
(overwritten at the start of each _calculate) and which descriptor objects
still carry a _context attribute. -/
structure Runtime where
  cache : List (Descriptor × Int)
  contexts : List Descriptor
deriving DecidableEq, Repr

/-- Calculator._calculate for one structure (lines 174-185): self._cache is
reset to an empty dict (line 175), a fresh Context provides an empty
diagnostic stack, and every registered descriptor is evaluated in
registration order. -/
def calcMol (descs : List Descriptor) (nFrags : Nat) (rt : Runtime) :
    List CalcResult × Runtime :=
  let s0 : EvalState :=
    { cache := [], stack := [], contexts := rt.contexts, counts := [] }
  let r := calcLoop nFrags descs s0
  (r.1, { cache := r.2.cache, contexts := r.2.contexts })

/-- Final evaluation state of one structure's evaluation, counts included. -/
def calcMolState (descs : List Descriptor) (nFrags : Nat) (rt : Runtime) : EvalState :=
  (calcLoop nFrags descs
    { cache := [], stack := [], contexts := rt.contexts, counts := [] }).2

/-- The column headers of the tabular export (Calculator.pandas line 295):
str(d) for each registered descriptor, in registration order. -/
def pandasColumns (s : CalcState) : List String :=
  s.descriptors.map Descriptor.name

/-! ## Concrete descriptors used in witnesses and counterexamples -/

/-- A descriptor whose calculate() raises a generic exception. -/
def exA : Descriptor := .mk "A" false false false false (.raiseErr (.user 0)) .nil

/-- A descriptor depending on exA whose own calculate() returns 1. -/
def exB : Descriptor := .mk "B" false false false false (.ret 1) (.consSome "a" exA .nil)

/-- A plain descriptor returning 5. -/
def exE : Descriptor := .mk "E" false false false false (.ret 5) .nil

/-- A descriptor requiring a connected structure, depending on exE. -/
def exD : Descriptor := .mk "D" false false false true (.ret 7) (.consSome "e" exE .nil)

/-- A descriptor that requires 3D coordinates. -/
def exC3 : Descriptor := .mk "C3" false false true false (.ret 0) .nil

/-- A descriptor that does not itself require 3D but depends on exC3. -/
def exB2 : Descriptor := .mk "B2" false false false false (.ret 2) (.consSome "c" exC3 .nil)

/-- A descriptor whose calculate() raises a MissingValueException. -/
def exM : Descriptor := .mk "M" true false false false (.raiseMissing (.user 9)) .nil

/-- A plain descriptor returning 3, depending on exE. -/
def exP : Descriptor := .mk "P" false false false false (.ret 3) (.consSome "e" exE .nil)

/-- An empty persistent runtime: empty cache, no descriptor carries a
context attribute. -/
def rt0 : Runtime := ⟨[], []⟩

/-- The evaluation state at the start of one structure's evaluation:
self._cache freshly emptied (line 175), a fresh Context with an empty
diagnostic stack, the persistent set of _context-carrying descriptors. -/
def molInitState (rt : Runtime) : EvalState :=
  { cache := [], stack := [], contexts := rt.contexts, counts := [] }

/-- The evaluation state when the loop of _calculate reaches the i-th
registered descriptor. -/
def preState (descs : List Descriptor) (nf : Nat) (rt : Runtime) (i : Nat) : EvalState :=
  (calcLoop nf (descs.take i) (molInitState rt)).2

/-! ## Basic lemmas about the evaluation state primitives -/

theorem cacheLookup_append_of_ne (c : List (Descriptor × Int)) (e d : Descriptor)
    (v : Int) (h : e ≠ d) : cacheLookup (c ++ [(e, v)]) d = cacheLookup c d := by
  induction c with
  | nil => simp [cacheLookup, h]
  | cons hd tl ih =>
    obtain ⟨k, w⟩ := hd
    by_cases hk : k = d <;> simp [cacheLookup, hk, ih]

theorem cacheLookup_append_self (c : List (Descriptor × Int)) (d : Descriptor)
    (v : Int) (h : cacheLookup c d = none) : cacheLookup (c ++ [(d, v)]) d = some v := by
  induction c with
  | nil => simp [cacheLookup]
  | cons hd tl ih =>
    obtain ⟨k, w⟩ := hd
    by_cases hk : k = d
    · simp [cacheLookup, hk] at h
    · simp [cacheLookup, hk] at h ⊢
      exact ih h

theorem countOf_bumpCount_ne (cs : List (Descriptor × Nat)) (e d : Descriptor)
    (h : e ≠ d) : countOf (bumpCount cs e) d = countOf cs d := by
  induction cs with
  | nil => simp [bumpCount, countOf, h]
  | cons hd tl ih =>
    obtain ⟨k, n⟩ := hd
    by_cases hk : k = e
    · subst hk
      simp [bumpCount, countOf, h]
    · by_cases hd : k = d <;> simp [bumpCount, countOf, hk, hd, Ne.symm h, ih]

theorem countOf_bumpCount_self (cs : List (Descriptor × Nat)) (d : Descriptor) :
    countOf (bumpCount cs d) d = countOf cs d + 1 := by
  induction cs with
  | nil => simp [bumpCount, countOf]
  | cons hd tl ih =>
    obtain ⟨k, n⟩ := hd
    by_cases hk : k = d
    · subst hk
      simp [bumpCount, countOf]
    · simp [bumpCount, countOf, hk, ih]

theorem ne_of_sizeOf_lt {d e : Descriptor} (h : sizeOf e < sizeOf d) : e ≠ d := by
  intro hc
  subst hc
  exact lt_irrefl _ h

@[simp] theorem pushState_counts (d : Descriptor) (r : Bool) (s : EvalState) :
    (pushState d r s).counts = s.counts := by cases r <;> rfl

@[simp] theorem pushState_cache (d : Descriptor) (r : Bool) (s : EvalState) :
    (pushState d r s).cache = s.cache := by cases r <;> rfl

theorem pushState_stack (d : Descriptor) (r : Bool) (s : EvalState) :
    (pushState d r s).stack = (if r then [] else s.stack) ++ [d] := by cases r <;> rfl

theorem pushState_contexts (d : Descriptor) (r : Bool) (s : EvalState) :
    (pushState d r s).contexts = insertCtx s.contexts d := by cases r <;> rfl

/-! ## Structure of the top-level evaluation loop -/

theorem calcLoop_length (nf : Nat) (l : List Descriptor) (s : EvalState) :
    (calcLoop nf l s).1.length = l.length := by
  induction l generalizing s with
  | nil => simp [calcLoop]
  | cons d rest ih => simp [calcLoop, ih]

theorem calcLoop_append (nf : Nat) (l1 l2 : List Descriptor) (s : EvalState) :
    calcLoop nf (l1 ++ l2) s =
      ((calcLoop nf l1 s).1 ++ (calcLoop nf l2 (calcLoop nf l1 s).2).1,
       (calcLoop nf l2 (calcLoop nf l1 s).2).2) := by
  induction l1 generalizing s with
  | nil => simp [calcLoop]
  | cons d rest ih => simp [calcLoop, ih]

theorem calcLoop_getElem (nf : Nat) (l : List Descriptor) (s : EvalState)
    (i : Nat) (h : i < l.length) :
    ((calcLoop nf l s).1)[i]? =
      some (toResult
        (calculateOne nf (l.get ⟨i, h⟩) true ((calcLoop nf (l.take i) s).2)).1
        (calculateOne nf (l.get ⟨i, h⟩) true ((calcLoop nf (l.take i) s).2)).2.stack) := by
  induction l generalizing s i with
  | nil => simp at h
  | cons d rest ih =>
    cases i with
    | zero => simp [calcLoop]
    | succ i =>
      have h2 : i < rest.length := by simpa using h
      simp only [calcLoop, List.take, List.get, List.getElem?_cons_succ]
      exact ih _ i h2

/-! ## Claim C9: the per-structure cache starts empty, values never leak -/

/-- Claim C9: each structure's evaluation begins with an empty memoization
cache (Calculator._calculate line 175 overwrites self._cache with an empty
dict), so whatever cache contents the calculator carries from evaluating
any other structure are invisible: the evaluation of a structure is
identical for any two stale cache contents, and in particular evaluating a
second structure right after a first one is identical to evaluating it with
the cache wiped — no value memoized for one structure is ever visible for
another. -/
theorem cache_never_leaks_between_structures (descs : List Descriptor) (nf : Nat)
    (c1 c2 : List (Descriptor × Int)) (ctxs : List Descriptor) (rt : Runtime)
    (nf2 : Nat) :
    calcMol descs nf ⟨c1, ctxs⟩ = calcMol descs nf ⟨c2, ctxs⟩ ∧
    calcMol descs nf2 (calcMol descs nf rt).2 =
      calcMol descs nf2 ⟨[], (calcMol descs nf rt).2.contexts⟩ := ⟨rfl, rfl⟩

/-! ## Claim C10: deletion of the per-structure _context attribute -/

/-- Counterexample to claim C10 as stated: with descriptors exA (whose
calculate raises) and exB (depending on exA), after the full iteration exA
still carries a _context attribute even though exA's own Result (an Error)
was yielded as the first element: exA was re-attached while being resolved
as an uncached dependency of exB, and only the top-level descriptor's
attribute is deleted in the finally block.  So it is not true that
descriptor objects carry no per-structure state once their result has been
yielded. -/
theorem context_persists_after_yield :
    ((calcMol [exA, exB] 1 rt0).1)[0]? = some (.error (.user 0) [exA]) ∧
    (calcMol [exA, exB] 1 rt0).2.contexts = [exA] := ⟨rfl, rfl⟩

/-- Claim C10 as amended: immediately after the evaluation of the i-th
top-level descriptor completes (value, Missing or Error alike), the
_context reference attached to that descriptor object has been removed
(the finally block at lines 183-185); descriptor objects may however be
re-attached a context later, when resolved as uncached dependencies of
subsequent units. -/
theorem context_removed_after_each_top_level (nf : Nat) (descs : List Descriptor)
    (s : EvalState) (i : Nat) (h : i < descs.length) :
    descs.get ⟨i, h⟩ ∉ ((calcLoop nf (descs.take (i + 1)) s).2).contexts := by
  have htake : descs.take (i + 1) = descs.take i ++ [descs.get ⟨i, h⟩] := by
    exact (List.take_concat_get' descs i h).symm
  rw [htake, calcLoop_append]
  simp [calcLoop, eraseCtx, List.mem_filter]

/-- Witness for the amended C10 theorem at a concrete input. -/
theorem context_removed_after_each_top_level_witness :
    exA ∉ ((calcLoop 1 ([exA, exB].take 1)
      { cache := [], stack := [], contexts := [], counts := [] }).2).contexts :=
  context_removed_after_each_top_level 1 [exA, exB]
    { cache := [], stack := [], contexts := [], counts := [] } 0 (by decide)

/-! ## Claim C4: the ignore_3D option and the aggregate require_3D flag -/

/-- Counterexample to claim C4 as stated: exB2 does not require 3D but its
dependency exC3 does; registering exB2 with ignore_3D=True still registers
exB2 and folds exC3 (a requires-3D unit in the dependency closure) into the
aggregate flag, because _register_one recurses into dependencies with
check_only=True but without propagating ignore_3D (line 98).  So a
requires-3D unit in the dependency closure is not silently skipped and does
contribute to the aggregate flag. -/
theorem ignore3D_dependency_contributes :
    exC3.require3D = true ∧
    closureAny Descriptor.require3D exB2 = true ∧
    (registerOne exB2 false true initCalcState).map (fun s => s.require_3D) = .ok true ∧
    (registerOne exB2 false true initCalcState).map
      (fun s => s.descriptors.map Descriptor.name) = .ok ["B2"] :=
  ⟨rfl, rfl, rfl, rfl⟩

/-! ## Claims C1 and C8: the shape of the per-structure output -/

/-- Claim C1: iterating the evaluation of all registered units yields
exactly one Result per registered unit and never raises past the iteration
boundary (calcMol is a total function into List CalcResult): a unit whose
resolution raises a missing-value condition yields a Missing result
carrying the diagnostic stack, a unit whose resolution raises any other
exception yields an Error result carrying the stack, and a unit whose
resolution returns normally yields that value. -/
theorem every_unit_yields_one_result (descs : List Descriptor) (nf : Nat) (rt : Runtime) :
    (calcMol descs nf rt).1.length = descs.length ∧
    ∀ (i : Nat) (h : i < descs.length),
      (∀ v : Int,
        (calculateOne nf (descs.get ⟨i, h⟩) true (preState descs nf rt i)).1 = .ok v →
        ((calcMol descs nf rt).1)[i]? = some (.value v)) ∧
      (∀ e : ErrKind,
        (calculateOne nf (descs.get ⟨i, h⟩) true (preState descs nf rt i)).1 =
          .error (.missingValue e) →
        ((calcMol descs nf rt).1)[i]? = some (.missing e
          (calculateOne nf (descs.get ⟨i, h⟩) true (preState descs nf rt i)).2.stack)) ∧
      (∀ e : ErrKind,
        (calculateOne nf (descs.get ⟨i, h⟩) true (preState descs nf rt i)).1 =
          .error (.generic e) →
        ((calcMol descs nf rt).1)[i]? = some (.error e
          (calculateOne nf (descs.get ⟨i, h⟩) true (preState descs nf rt i)).2.stack)) := by
  constructor
  · simpa [calcMol] using calcLoop_length nf descs (molInitState rt)
  · intro i h
    have hg := calcLoop_getElem nf descs (molInitState rt) i h
    have hcm : ((calcMol descs nf rt).1)[i]? =
        ((calcLoop nf descs (molInitState rt)).1)[i]? := rfl
    refine ⟨?_, ?_, ?_⟩
    · intro v hv
      rw [hcm, hg]
      simp only [preState] at hv
      rw [hv]
      simp [toResult]
    · intro e he
      rw [hcm, hg]
      simp only [preState] at he
      rw [he]
      simp [toResult, preState]
    · intro e he
      rw [hcm, hg]
      simp only [preState] at he
      rw [he]
      simp [toResult, preState]

/-- Witness for C1 at a concrete input: a unit returning 5 yields the plain
value 5 as the first (and only) Result. -/
theorem every_unit_yields_one_result_witness :
    ((calcMol [exE] 1 rt0).1)[0]? = some (.value 5) :=
  ((every_unit_yields_one_result [exE] 1 rt0).2 0 (by decide)).1 5 rfl

/-- Claim C8: the Result sequence of single-structure evaluation is
index-aligned with the registration order: it has one entry per registered
descriptor, a prefix of registered descriptors contributes exactly the
corresponding prefix of Results (so output order matches registration
order, whatever happens during dependency resolution), and the i-th column
header of the tabular export is the canonical name of the i-th registered
descriptor. -/
theorem output_aligned_with_registration_order (nf : Nat) (rt : Runtime) (cs : CalcState) :
    (∀ descs : List Descriptor, (calcMol descs nf rt).1.length = descs.length) ∧
    (∀ (l1 l2 : List Descriptor) (s : EvalState),
      (calcLoop nf (l1 ++ l2) s).1 =
        (calcLoop nf l1 s).1 ++ (calcLoop nf l2 (calcLoop nf l1 s).2).1) ∧
    (pandasColumns cs).length = cs.descriptors.length ∧
    (∀ (i : Nat) (h : i < cs.descriptors.length),
      (pandasColumns cs)[i]? = some (cs.descriptors.get ⟨i, h⟩).name) := by
  refine ⟨?_, ?_, ?_, ?_⟩
  · intro descs
    simpa [calcMol] using calcLoop_length nf descs (molInitState rt)
  · intro l1 l2 s
    rw [calcLoop_append]
  · simp [pandasColumns]
  · intro i h
    simp [pandasColumns]
    exact ⟨cs.descriptors[i], List.getElem?_eq_getElem h, rfl⟩

/-- Witness for C8 at a concrete input. -/
theorem output_aligned_with_registration_order_witness :
    (pandasColumns { initCalcState with descriptors := [exE] })[0]? = some "E" :=
  (output_aligned_with_registration_order 1 rt0
    { initCalcState with descriptors := [exE] }).2.2.2 0 (by decide)

/-! ## Claim C2: memoization -/

/-- Resolving a descriptor strictly smaller than d (hence distinct from d
and with a subtree avoiding d) neither changes how often d.calculate has
run nor d's cache entry; dependency-map version, parametrized by a bound B
and a hypothesis covering calculateOne on descriptors of size at most B. -/
theorem calcDeps_preserves_of (nf : Nat) (d : Descriptor) (B : Nat)
    (H : ∀ (e : Descriptor) (r : Bool) (s : EvalState), sizeOf e ≤ B →
      countOf ((calculateOne nf e r s).2).counts d = countOf s.counts d ∧
      cacheLookup ((calculateOne nf e r s).2).cache d = cacheLookup s.cache d) :
    ∀ (k : Nat) (l : DepList), sizeOf l ≤ k → sizeOf l ≤ B + 1 → ∀ (s : EvalState),
      countOf ((calculateDeps nf l s).2).counts d = countOf s.counts d ∧
      cacheLookup ((calculateDeps nf l s).2).cache d = cacheLookup s.cache d := by
  intro k
  induction k with
  | zero =>
    intro l hk _ s
    exfalso
    cases l <;> simp_arith at hk
  | succ k ih =>
    intro l hk hB s
    cases l with
    | nil => simp [calculateDeps]
    | consNone nm rest =>
      have h1 : sizeOf rest < sizeOf (DepList.consNone nm rest) := by simp_arith
      have hrest := ih rest (by omega) (by omega) s
      rcases hres : calculateDeps nf rest s with ⟨out, s1⟩
      rw [hres] at hrest
      cases out <;> simp [calculateDeps, hres, hrest]
    | consSome nm dep rest =>
      have h1 : sizeOf dep < sizeOf (DepList.consSome nm dep rest) := by simp_arith
      have h2 : sizeOf rest < sizeOf (DepList.consSome nm dep rest) := by simp_arith
      have hdep := H dep false s (by omega)
      rcases hone : calculateOne nf dep false s with ⟨out, s1⟩
      rw [hone] at hdep
      cases out with
      | error e => simp [calculateDeps, hone, hdep]
      | ok v =>
        have hrest := ih rest (by omega) (by omega) s1
        rcases hres : calculateDeps nf rest s1 with ⟨out2, s2⟩
        rw [hres] at hrest
        cases out2 <;>
          simp [calculateDeps, hone, hres, hdep.1, hdep.2, hrest.1, hrest.2]

/-- Resolving a descriptor strictly smaller than d neither changes how
often d.calculate has run nor d's cache entry. -/
theorem calcOne_preserves_of_lt (nf : Nat) (d : Descriptor) :
    ∀ (k : Nat) (e : Descriptor) (r : Bool) (s : EvalState),
      sizeOf e ≤ k → sizeOf e < sizeOf d →
      countOf ((calculateOne nf e r s).2).counts d = countOf s.counts d ∧
      cacheLookup ((calculateOne nf e r s).2).cache d = cacheLookup s.cache d := by
  intro k
  induction k with
  | zero =>
    intro e r s hk _
    exfalso
    cases e
    simp_arith at hk
  | succ k ih =>
    intro e r s hk hlt
    cases e with
    | mk nm eh kek r3 rc beh deps =>
      have hne : Descriptor.mk nm eh kek r3 rc beh deps ≠ d := ne_of_sizeOf_lt hlt
      have hdepsize : sizeOf deps < sizeOf (Descriptor.mk nm eh kek r3 rc beh deps) := by
        simp_arith
      cases hc : cacheLookup s.cache (.mk nm eh kek r3 rc beh deps) with
      | some v => simp [calculateOne, hc]
      | none =>
        by_cases hrc : rc = true ∧ nf ≠ 1
        · simp [calculateOne, hc, if_pos hrc, descFail]
        · have Hd : ∀ (e' : Descriptor) (r' : Bool) (s' : EvalState),
              sizeOf e' ≤ sizeOf deps →
              countOf ((calculateOne nf e' r' s').2).counts d = countOf s'.counts d ∧
              cacheLookup ((calculateOne nf e' r' s').2).cache d = cacheLookup s'.cache d :=
            fun e' r' s' hle => ih e' r' s' (by omega) (by omega)
          have hdeps := calcDeps_preserves_of nf d (sizeOf deps) Hd (sizeOf deps) deps
            (le_refl _) (by omega)
            (pushState (.mk nm eh kek r3 rc beh deps) r s)
          rcases hdl : calculateDeps nf deps
              (pushState (.mk nm eh kek r3 rc beh deps) r s) with ⟨out, s4⟩
          rw [hdl] at hdeps
          have hcount4 : countOf s4.counts d = countOf s.counts d := by
            simpa using hdeps.1
          have hcache4 : cacheLookup s4.cache d = cacheLookup s.cache d := by
            simpa using hdeps.2
          cases out with
          | error e0 =>
            simp [calculateOne, hc, if_neg hrc, hdl, hcount4, hcache4]
          | ok args =>
            cases beh with
            | ret v =>
              simp [calculateOne, hc, if_neg hrc, hdl, hcount4, hcache4,
                countOf_bumpCount_ne _ _ _ hne, cacheLookup_append_of_ne _ _ _ _ hne]
            | raiseMissing e0 =>
              simp [calculateOne, hc, if_neg hrc, hdl, hcount4, hcache4,
                countOf_bumpCount_ne _ _ _ hne]
            | raiseErr e0 =>
              simp [calculateOne, hc, if_neg hrc, hdl, hcount4, hcache4,
                countOf_bumpCount_ne _ _ _ hne]

/-- Claim C2: within one structure's evaluation context, if a descriptor
not yet memoized resolves successfully, its calculate() has then run
exactly one more time (and dependency resolution of its subtree cannot
have invoked it), its value is memoized, and a second request for the same
descriptor — with any reset flag, so directly as a top-level output or as
another unit's dependency — returns the memoized value immediately and
leaves the evaluation state completely unchanged (in particular calculate()
is not invoked again). -/
theorem memoized_second_request (nf : Nat) (d : Descriptor) (r r2 : Bool)
    (s : EvalState) (v : Int)
    (hmiss : cacheLookup s.cache d = none)
    (hok : (calculateOne nf d r s).1 = .ok v) :
    countOf ((calculateOne nf d r s).2).counts d = countOf s.counts d + 1 ∧
    cacheLookup ((calculateOne nf d r s).2).cache d = some v ∧
    calculateOne nf d r2 ((calculateOne nf d r s).2) = (.ok v, (calculateOne nf d r s).2) := by
  cases d with
  | mk nm eh kek r3 rc beh deps =>
    have hdepsize : sizeOf deps < sizeOf (Descriptor.mk nm eh kek r3 rc beh deps) := by
      simp_arith
    by_cases hrc : rc = true ∧ nf ≠ 1
    · exfalso
      simp [calculateOne, hmiss, if_pos hrc, descFail] at hok
    · rcases hdl : calculateDeps nf deps
          (pushState (.mk nm eh kek r3 rc beh deps) r s) with ⟨out, s4⟩
      have Hd : ∀ (e' : Descriptor) (r' : Bool) (s' : EvalState),
          sizeOf e' ≤ sizeOf deps →
          countOf ((calculateOne nf e' r' s').2).counts
            (Descriptor.mk nm eh kek r3 rc beh deps) =
            countOf s'.counts (Descriptor.mk nm eh kek r3 rc beh deps) ∧
          cacheLookup ((calculateOne nf e' r' s').2).cache
            (Descriptor.mk nm eh kek r3 rc beh deps) =
            cacheLookup s'.cache (Descriptor.mk nm eh kek r3 rc beh deps) :=
        fun e' r' s' hle =>
          calcOne_preserves_of_lt nf (.mk nm eh kek r3 rc beh deps) (sizeOf deps)
            e' r' s' hle (by omega)
      have hdeps := calcDeps_preserves_of nf (.mk nm eh kek r3 rc beh deps)
        (sizeOf deps) Hd (sizeOf deps) deps (le_refl _) (by omega)
        (pushState (.mk nm eh kek r3 rc beh deps) r s)
      rw [hdl] at hdeps
      have hcount4 : countOf s4.counts (Descriptor.mk nm eh kek r3 rc beh deps) =
          countOf s.counts (Descriptor.mk nm eh kek r3 rc beh deps) := by
        simpa using hdeps.1
      have hcache4 : cacheLookup s4.cache (Descriptor.mk nm eh kek r3 rc beh deps) =
          none := by
        have := hdeps.2
        simpa [hmiss] using this
      cases out with
      | error e0 =>
        exfalso
        simp [calculateOne, hmiss, if_neg hrc, hdl] at hok
      | ok args =>
        cases beh with
        | ret w =>
          have hv : w = v := by
            simpa [calculateOne, hmiss, if_neg hrc, hdl] using hok
          subst hv
          have heq : calculateOne nf (.mk nm eh kek r3 rc (.ret w) deps) r s =
              (.ok w, { s4 with
                cache := s4.cache ++ [(Descriptor.mk nm eh kek r3 rc (.ret w) deps, w)],
                counts := bumpCount s4.counts (Descriptor.mk nm eh kek r3 rc (.ret w) deps) }) := by
            simp [calculateOne, hmiss, if_neg hrc, hdl]
          rw [heq]
          have hsome : cacheLookup
              (s4.cache ++ [(Descriptor.mk nm eh kek r3 rc (.ret w) deps, w)])
              (Descriptor.mk nm eh kek r3 rc (.ret w) deps) = some w :=
            cacheLookup_append_self _ _ _ hcache4
          refine ⟨?_, ?_, ?_⟩
          · simp [countOf_bumpCount_self, hcount4]
          · simpa using hsome
          · simp [calculateOne, hsome]
        | raiseMissing e0 =>
          exfalso
          simp [calculateOne, hmiss, if_neg hrc, hdl] at hok
        | raiseErr e0 =>
          exfalso
          simp [calculateOne, hmiss, if_neg hrc, hdl] at hok

/-- Witness for C2 at a concrete input: exE (not yet cached) resolves to 5;
afterwards its calculate() has run once and a second request returns the
memoized 5 with the state unchanged. -/
theorem memoized_second_request_witness :
    countOf ((calculateOne 1 exE true (molInitState rt0)).2).counts exE =
      countOf (molInitState rt0).counts exE + 1 ∧
    cacheLookup ((calculateOne 1 exE true (molInitState rt0)).2).cache exE = some 5 ∧
    calculateOne 1 exE false ((calculateOne 1 exE true (molInitState rt0)).2) =
      (.ok 5, (calculateOne 1 exE true (molInitState rt0)).2) :=
  memoized_second_request 1 exE true false (molInitState rt0) 5 rfl rfl

/-! ## Claims C5 and C6: the single-fragment precondition -/

/-- A descriptor requiring a connected structure never has its calculate()
invoked and never acquires a cache entry while the structure has more than
one fragment; version for resolving one dependency map, parametrized like
calcDeps_preserves_of. -/
theorem calcDeps_frag_of (nf : Nat) (d : Descriptor) (B : Nat)
    (H : ∀ (e : Descriptor) (r : Bool) (s : EvalState), sizeOf e ≤ B →
      cacheLookup s.cache d = none →
      cacheLookup ((calculateOne nf e r s).2).cache d = none ∧
      countOf ((calculateOne nf e r s).2).counts d = countOf s.counts d) :
    ∀ (k : Nat) (l : DepList), sizeOf l ≤ k → sizeOf l ≤ B + 1 → ∀ (s : EvalState),
      cacheLookup s.cache d = none →
      cacheLookup ((calculateDeps nf l s).2).cache d = none ∧
      countOf ((calculateDeps nf l s).2).counts d = countOf s.counts d := by
  intro k
  induction k with
  | zero =>
    intro l hk _ s _
    exfalso
    cases l <;> simp_arith at hk
  | succ k ih =>
    intro l hk hB s hnone
    cases l with
    | nil => simpa [calculateDeps] using hnone
    | consNone nm rest =>
      have h1 : sizeOf rest < sizeOf (DepList.consNone nm rest) := by simp_arith
      have hrest := ih rest (by omega) (by omega) s hnone
      rcases hres : calculateDeps nf rest s with ⟨out, s1⟩
      rw [hres] at hrest
      cases out <;> simp [calculateDeps, hres, hrest.1, hrest.2]
    | consSome nm dep rest =>
      have h1 : sizeOf dep < sizeOf (DepList.consSome nm dep rest) := by simp_arith
      have h2 : sizeOf rest < sizeOf (DepList.consSome nm dep rest) := by simp_arith
      have hdep := H dep false s (by omega) hnone
      rcases hone : calculateOne nf dep false s with ⟨out, s1⟩
      rw [hone] at hdep
      cases out with
      | error e => simp [calculateDeps, hone, hdep.1, hdep.2]
      | ok v =>
        have hrest := ih rest (by omega) (by omega) s1 hdep.1
        rcases hres : calculateDeps nf rest s1 with ⟨out2, s2⟩
        rw [hres] at hrest
        cases out2 <;>
          simp [calculateDeps, hone, hres, hdep.2, hrest.1, hrest.2]

/-- A descriptor d requiring a connected structure, evaluated while the
structure has fragment count different from 1, can never have its
calculate() invoked nor acquire a cache entry during the resolution of any
descriptor e (d's own resolution fails the fragment check first; any other
resolution only touches its own cache and count entries). -/
theorem calcOne_frag_blocked (nf : Nat) (d : Descriptor)
    (hrcd : d.requireConnected = true) (hn : nf ≠ 1) :
    ∀ (k : Nat) (e : Descriptor) (r : Bool) (s : EvalState), sizeOf e ≤ k →
      cacheLookup s.cache d = none →
      cacheLookup ((calculateOne nf e r s).2).cache d = none ∧
      countOf ((calculateOne nf e r s).2).counts d = countOf s.counts d := by
  intro k
  induction k with
  | zero =>
    intro e r s hk _
    exfalso
    cases e
    simp_arith at hk
  | succ k ih =>
    intro e r s hk hnone
    cases e with
    | mk nm eh kek r3 rc beh deps =>
      by_cases hed : Descriptor.mk nm eh kek r3 rc beh deps = d
      · subst hed
        have hrc : rc = true := by
          simpa [Descriptor.requireConnected] using hrcd
        subst hrc
        simp [calculateOne, hnone, hn, descFail]
      · cases hc : cacheLookup s.cache (.mk nm eh kek r3 rc beh deps) with
        | some v => simp [calculateOne, hc, hnone]
        | none =>
          have hdepsize : sizeOf deps <
              sizeOf (Descriptor.mk nm eh kek r3 rc beh deps) := by simp_arith
          by_cases hfr : rc = true ∧ nf ≠ 1
          · simp [calculateOne, hc, if_pos hfr, descFail, hnone]
          · have Hd : ∀ (e' : Descriptor) (r' : Bool) (s' : EvalState),
                sizeOf e' ≤ sizeOf deps →
                cacheLookup s'.cache d = none →
                cacheLookup ((calculateOne nf e' r' s').2).cache d = none ∧
                countOf ((calculateOne nf e' r' s').2).counts d = countOf s'.counts d :=
              fun e' r' s' hle => ih e' r' s' (by omega)
            have hpush : cacheLookup
                (pushState (.mk nm eh kek r3 rc beh deps) r s).cache d = none := by
              simpa using hnone
            have hdeps := calcDeps_frag_of nf d (sizeOf deps) Hd (sizeOf deps) deps
              (le_refl _) (by omega)
              (pushState (.mk nm eh kek r3 rc beh deps) r s) hpush
            rcases hdl : calculateDeps nf deps
                (pushState (.mk nm eh kek r3 rc beh deps) r s) with ⟨out, s4⟩
            rw [hdl] at hdeps
            have hcache4 : cacheLookup s4.cache d = none := hdeps.1
            have hcount4 : countOf s4.counts d = countOf s.counts d := by
              simpa using hdeps.2
            cases out with
            | error e0 =>
              simp [calculateOne, hc, if_neg hfr, hdl, hcache4, hcount4]
            | ok args =>
              cases beh with
              | ret v =>
                simp [calculateOne, hc, if_neg hfr, hdl,
                  cacheLookup_append_of_ne _ _ _ _ hed, hcache4,
                  countOf_bumpCount_ne _ _ _ hed, hcount4]
              | raiseMissing e0 =>
                simp [calculateOne, hc, if_neg hfr, hdl, hcache4,
                  countOf_bumpCount_ne _ _ _ hed, hcount4]
              | raiseErr e0 =>
                simp [calculateOne, hc, if_neg hfr, hdl, hcache4,
                  countOf_bumpCount_ne _ _ _ hed, hcount4]

/-- Loop version of calcOne_frag_blocked over the whole top-level
iteration. -/
theorem calcLoop_frag_blocked (nf : Nat) (d : Descriptor)
    (hrcd : d.requireConnected = true) (hn : nf ≠ 1) :
    ∀ (l : List Descriptor) (s : EvalState), cacheLookup s.cache d = none →
      cacheLookup ((calcLoop nf l s).2).cache d = none ∧
      countOf ((calcLoop nf l s).2).counts d = countOf s.counts d := by
  intro l
  induction l with
  | nil => intro s hnone; simpa [calcLoop] using hnone
  | cons d0 rest ih =>
    intro s hnone
    have hone := calcOne_frag_blocked nf d hrcd hn (sizeOf d0) d0 true s
      (le_refl _) hnone
    rcases h1 : calculateOne nf d0 true s with ⟨out, s1⟩
    rw [h1] at hone
    have hrest := ih { s1 with contexts := eraseCtx s1.contexts d0 }
      (by simpa using hone.1)
    simp only [calcLoop, h1]
    constructor
    · exact hrest.1
    · rw [hrest.2]
      simpa using hone.2

/-- If a not-yet-cached descriptor requires a connected structure and the
fragment count differs from 1, its resolution fails immediately after the
stack push with the MultipleFragments condition (raised through
Descriptor.fail as a missing-value condition), before any dependency is
resolved and before calculate() is invoked. -/
theorem calculateOne_frag_fail (nf : Nat) (d : Descriptor) (r : Bool) (s : EvalState)
    (hmiss : cacheLookup s.cache d = none)
    (hrc : d.requireConnected = true) (hn : nf ≠ 1) :
    calculateOne nf d r s = (.error (.missingValue .multipleFragments), pushState d r s) := by
  cases d with
  | mk nm eh kek r3 rc beh deps =>
    have hrc2 : rc = true := by simpa [Descriptor.requireConnected] using hrc
    subst hrc2
    simp [calculateOne, hmiss, hn, descFail]

/-- Claim C5: a registered descriptor requiring a single connected
fragment, evaluated for a structure whose fragment count is not 1, yields
the tagged multiple-fragments failure (a Missing result carrying the
recognizable MultipleFragments condition and the diagnostic stack holding
just that unit), and its calculate() is never invoked anywhere in the whole
structure evaluation — not even while other units are resolved. -/
theorem multiple_fragments_tagged_failure (descs : List Descriptor) (nf : Nat)
    (rt : Runtime) (i : Nat) (h : i < descs.length)
    (hrc : (descs.get ⟨i, h⟩).requireConnected = true) (hn : nf ≠ 1) :
    ((calcMol descs nf rt).1)[i]? =
      some (.missing .multipleFragments [descs.get ⟨i, h⟩]) ∧
    countOf (calcMolState descs nf rt).counts (descs.get ⟨i, h⟩) = 0 := by
  have hpre := calcLoop_frag_blocked nf (descs.get ⟨i, h⟩) hrc hn
    (descs.take i) (molInitState rt) rfl
  have hfail := calculateOne_frag_fail nf (descs.get ⟨i, h⟩) true
    ((calcLoop nf (descs.take i) (molInitState rt)).2) hpre.1 hrc hn
  constructor
  · have hcm : ((calcMol descs nf rt).1)[i]? =
        ((calcLoop nf descs (molInitState rt)).1)[i]? := rfl
    rw [hcm, calcLoop_getElem nf descs (molInitState rt) i h, hfail]
    simp [toResult, pushState_stack]
  · have hfull := calcLoop_frag_blocked nf (descs.get ⟨i, h⟩) hrc hn
      descs (molInitState rt) rfl
    have hcs : calcMolState descs nf rt = (calcLoop nf descs (molInitState rt)).2 := rfl
    rw [hcs, hfull.2]
    rfl

/-- Witness for C5 at a concrete input: exD requires a connected structure;
for a structure with 2 fragments it yields Missing(MultipleFragments) with
stack just exD, and its calculate() never runs. -/
theorem multiple_fragments_tagged_failure_witness :
    ((calcMol [exD] 2 rt0).1)[0]? = some (.missing .multipleFragments [exD]) ∧
    countOf (calcMolState [exD] 2 rt0).counts exD = 0 := by
  have := multiple_fragments_tagged_failure [exD] 2 rt0 0 (by decide) rfl (by decide)
  simpa using this

/-- Counterexample to claim C6 as stated: the code checks the
single-fragment precondition (line 146) before resolving dependencies
(lines 149-153), not after.  Concretely, exD requires a connected structure
and declares exE as its only dependency; on a 2-fragment structure exD
fails the fragment check while exE is left completely untouched: exE's
calculate() never ran, exE was never cached, and exE was never pushed on
the diagnostic stack (the final stack is just [exD]).  Under the claimed
order — dependencies resolved first, fragment check afterwards — exE would
have been resolved (invoked and cached) before the failure. -/
theorem dependencies_not_resolved_before_frag_check :
    (calcMol [exD] 2 rt0).1 = [.missing .multipleFragments [exD]] ∧
    countOf (calcMolState [exD] 2 rt0).counts exE = 0 ∧
    cacheLookup (calcMolState [exD] 2 rt0).cache exE = none ∧
    (calcMolState [exD] 2 rt0).stack = [exD] ∧
    countOf (calcMolState [exD] 2 rt0).counts exD = 0 :=
  ⟨rfl, rfl, rfl, rfl, rfl⟩

/-- Claim C6 as amended: during resolution of an uncached unit d the
evaluator pushes d onto the diagnostic stack and then — before resolving
any dependency and before invoking calculate — checks the
single-connected-fragment precondition: when the check fails, the
resolution returns the MultipleFragments failure in a state whose cache and
calculate-invocation counts are exactly those before the resolution (no
dependency was resolved, no calculate ran) and whose stack has just gained
d.  Dependencies (which are resolved only when the check passes) follow the
declaration map in order, a null-mapped dependency resolving to a null
placeholder with no recursion and no state change. -/
theorem frag_check_after_push_before_dependencies (nf : Nat) (d : Descriptor)
    (r : Bool) (s : EvalState)
    (hmiss : cacheLookup s.cache d = none)
    (hrc : d.requireConnected = true) (hn : nf ≠ 1) :
    calculateOne nf d r s = (.error (.missingValue .multipleFragments), pushState d r s) ∧
    (pushState d r s).cache = s.cache ∧
    (pushState d r s).counts = s.counts ∧
    (pushState d r s).stack = (if r then [] else s.stack) ++ [d] ∧
    (∀ (nm : String) (t : EvalState),
      calculateDeps nf (.consNone nm .nil) t = (.ok [(nm, none)], t)) := by
  refine ⟨calculateOne_frag_fail nf d r s hmiss hrc hn, by simp, by simp,
    pushState_stack d r s, ?_⟩
  intro nm t
  rfl

/-- Witness for the amended C6 theorem at a concrete input. -/
theorem frag_check_after_push_before_dependencies_witness :
    calculateOne 2 exD true (molInitState rt0) =
      (.error (.missingValue .multipleFragments), pushState exD true (molInitState rt0)) :=
  (frag_check_after_push_before_dependencies 2 exD true (molInitState rt0)
    rfl rfl (by decide)).1

/-! ## Claims C3, C4, C7: registration -/

@[simp] theorem BoolSet_add_hasTrue (s : BoolSet) (b : Bool) :
    (s.add b).hasTrue = (s.hasTrue || b) := by
  cases b <;> simp [BoolSet.add]

/-- Characterization of a check_only registration on the dependency-map
side: it always succeeds, adds nothing to the output sequence or the name
lookup, and ORs the closure flags of every descriptor in the map into the
aggregate state.  Parametrized by a bound B and a hypothesis covering
registerOne on descriptors of size at most B. -/
theorem registerDeps_spec_of (B : Nat)
    (H : ∀ (e : Descriptor) (s : CalcState), sizeOf e ≤ B →
      ∃ t, registerOne e true false s = .ok t ∧
        t.descriptors = s.descriptors ∧ t.name_dict = s.name_dict ∧
        t.require_3D = (s.require_3D || closureAny Descriptor.require3D e) ∧
        t.explicit_hydrogens.hasTrue =
          (s.explicit_hydrogens.hasTrue || closureAny Descriptor.explicitHydrogens e) ∧
        t.kekulizes.hasTrue =
          (s.kekulizes.hasTrue || closureAny Descriptor.kekulize e)) :
    ∀ (k : Nat) (l : DepList), sizeOf l ≤ k → sizeOf l ≤ B + 1 → ∀ (s : CalcState),
      ∃ t, registerDeps l s = .ok t ∧
        t.descriptors = s.descriptors ∧ t.name_dict = s.name_dict ∧
        t.require_3D = (s.require_3D || closureAnyDeps Descriptor.require3D l) ∧
        t.explicit_hydrogens.hasTrue =
          (s.explicit_hydrogens.hasTrue || closureAnyDeps Descriptor.explicitHydrogens l) ∧
        t.kekulizes.hasTrue =
          (s.kekulizes.hasTrue || closureAnyDeps Descriptor.kekulize l) := by
  intro k
  induction k with
  | zero =>
    intro l hk _ s
    exfalso
    cases l <;> simp_arith at hk
  | succ k ih =>
    intro l hk hB s
    cases l with
    | nil => exact ⟨s, rfl, rfl, rfl, by simp [closureAnyDeps], by simp [closureAnyDeps],
        by simp [closureAnyDeps]⟩
    | consNone nm rest =>
      have h1 : sizeOf rest < sizeOf (DepList.consNone nm rest) := by simp_arith
      obtain ⟨t, ht, h2, h3, h4, h5, h6⟩ := ih rest (by omega) (by omega) s
      exact ⟨t, by simpa [registerDeps] using ht, h2, h3,
        by simpa [closureAnyDeps] using h4,
        by simpa [closureAnyDeps] using h5,
        by simpa [closureAnyDeps] using h6⟩
    | consSome nm dep rest =>
      have h1 : sizeOf dep < sizeOf (DepList.consSome nm dep rest) := by simp_arith
      have h2 : sizeOf rest < sizeOf (DepList.consSome nm dep rest) := by simp_arith
      obtain ⟨t1, ht1, d1, n1, r1, e1, k1⟩ := H dep s (by omega)
      obtain ⟨t2, ht2, d2, n2, r2, e2, k2⟩ := ih rest (by omega) (by omega) t1
      refine ⟨t2, ?_, by rw [d2, d1], by rw [n2, n1], ?_, ?_, ?_⟩
      · simp [registerDeps, ht1, ht2]
      · rw [r2, r1]
        simp [closureAnyDeps, Bool.or_assoc]
      · rw [e2, e1]
        simp [closureAnyDeps, Bool.or_assoc]
      · rw [k2, k1]
        simp [closureAnyDeps, Bool.or_assoc]

/-- A check_only registration (used for dependency-only units) always
succeeds, adds nothing to the output sequence or name lookup, and ORs the
unit's dependency-closure flags into the aggregate state. -/
theorem registerOne_check_spec :
    ∀ (k : Nat) (e : Descriptor), sizeOf e ≤ k → ∀ (s : CalcState),
      ∃ t, registerOne e true false s = .ok t ∧
        t.descriptors = s.descriptors ∧ t.name_dict = s.name_dict ∧
        t.require_3D = (s.require_3D || closureAny Descriptor.require3D e) ∧
        t.explicit_hydrogens.hasTrue =
          (s.explicit_hydrogens.hasTrue || closureAny Descriptor.explicitHydrogens e) ∧
        t.kekulizes.hasTrue =
          (s.kekulizes.hasTrue || closureAny Descriptor.kekulize e) := by
  intro k
  induction k with
  | zero =>
    intro e hk
    exfalso
    cases e
    simp_arith at hk
  | succ k ih =>
    intro e hk s
    cases e with
    | mk nm eh kek r3 rc beh deps =>
      have hdepsize : sizeOf deps < sizeOf (Descriptor.mk nm eh kek r3 rc beh deps) := by
        simp_arith
      obtain ⟨t, ht, d1, n1, r1, e1, k1⟩ :=
        registerDeps_spec_of (sizeOf deps)
          (fun e' s' hle => ih e' (by omega) s') (sizeOf deps) deps
          (le_refl _) (by omega)
          { s with explicit_hydrogens := s.explicit_hydrogens.add eh,
                   kekulizes := s.kekulizes.add kek,
                   require_3D := s.require_3D || r3 }
      refine ⟨t, ?_, d1, n1, ?_, ?_, ?_⟩
      · simp [registerOne, ht]
      · rw [r1]
        simp [closureAny, Descriptor.require3D, Bool.or_assoc]
      · rw [e1]
        simp [closureAny, Descriptor.explicitHydrogens, Bool.or_assoc]
      · rw [k1]
        simp [closureAny, Descriptor.kekulize, Bool.or_assoc]

/-- A direct registration of a descriptor whose canonical name is not yet
taken succeeds: the unit is appended to the output sequence and the name
lookup, and the closure flags are folded into the aggregate state. -/
theorem registerOne_direct_spec (d : Descriptor) (s : CalcState)
    (hfresh : lookupName d.name s.name_dict = none) :
    ∃ t, registerOne d false false s = .ok t ∧
      t.descriptors = s.descriptors ++ [d] ∧
      t.name_dict = s.name_dict ++ [(d.name, d)] ∧
      t.require_3D = (s.require_3D || closureAny Descriptor.require3D d) ∧
      t.explicit_hydrogens.hasTrue =
        (s.explicit_hydrogens.hasTrue || closureAny Descriptor.explicitHydrogens d) ∧
      t.kekulizes.hasTrue =
        (s.kekulizes.hasTrue || closureAny Descriptor.kekulize d) := by
  cases d with
  | mk nm eh kek r3 rc beh deps =>
    have hdepsize : sizeOf deps < sizeOf (Descriptor.mk nm eh kek r3 rc beh deps) := by
      simp_arith
    obtain ⟨t, ht, d1, n1, r1, e1, k1⟩ :=
      registerDeps_spec_of (sizeOf deps)
        (fun e' s' hle => registerOne_check_spec (sizeOf deps) e' hle s')
        (sizeOf deps) deps (le_refl _) (by omega)
        { s with explicit_hydrogens := s.explicit_hydrogens.add eh,
                 kekulizes := s.kekulizes.add kek,
                 require_3D := s.require_3D || r3 }
    have hlook : lookupName (Descriptor.mk nm eh kek r3 rc beh deps).name t.name_dict =
        none := by
      rw [n1]
      exact hfresh
    refine ⟨{ t with
        name_dict := t.name_dict ++
          [((Descriptor.mk nm eh kek r3 rc beh deps).name, .mk nm eh kek r3 rc beh deps)],
        descriptors := t.descriptors ++ [.mk nm eh kek r3 rc beh deps] },
      ?_, by rw [d1], by rw [n1], ?_, ?_, ?_⟩
    · simp [registerOne, ht, hlook]
    · rw [r1]
      simp [closureAny, Descriptor.require3D, Bool.or_assoc]
    · rw [e1]
      simp [closureAny, Descriptor.explicitHydrogens, Bool.or_assoc]
    · rw [k1]
      simp [closureAny, Descriptor.kekulize, Bool.or_assoc]

/-- A direct registration of a descriptor whose canonical name is already
taken raises DuplicatedDescriptorName (carrying the new and the previously
registered descriptor). -/
theorem registerOne_duplicate_spec (d : Descriptor) (s : CalcState) (old : Descriptor)
    (hdup : lookupName d.name s.name_dict = some old) :
    registerOne d false false s = .error (.duplicatedDescriptorName d old) := by
  cases d with
  | mk nm eh kek r3 rc beh deps =>
    have hdepsize : sizeOf deps < sizeOf (Descriptor.mk nm eh kek r3 rc beh deps) := by
      simp_arith
    obtain ⟨t, ht, d1, n1, r1, e1, k1⟩ :=
      registerDeps_spec_of (sizeOf deps)
        (fun e' s' hle => registerOne_check_spec (sizeOf deps) e' hle s')
        (sizeOf deps) deps (le_refl _) (by omega)
        { s with explicit_hydrogens := s.explicit_hydrogens.add eh,
                 kekulizes := s.kekulizes.add kek,
                 require_3D := s.require_3D || r3 }
    have hlook : lookupName (Descriptor.mk nm eh kek r3 rc beh deps).name t.name_dict =
        some old := by
      rw [n1]
      exact hdup
    simp [registerOne, ht, hlook]

/-- Registering a unit whose own require_3D is true with ignore_3D=True is
a silent no-op (lines 89-90). -/
theorem registerOne_skip_3D (d : Descriptor) (co : Bool) (s : CalcState)
    (h3 : d.require3D = true) : registerOne d co true s = .ok s := by
  cases d with
  | mk nm eh kek r3 rc beh deps =>
    have h3r : r3 = true := by simpa [Descriptor.require3D] using h3
    subst h3r
    simp [registerOne]

/-- Registering a unit whose own require_3D is false behaves identically
with ignore_3D True or False: the option is consulted only for the
top-level unit itself (line 89), dependencies are always folded with the
default ignore_3D=False (line 98). -/
theorem registerOne_ignore_no3D (d : Descriptor) (co : Bool) (s : CalcState)
    (h3 : d.require3D = false) :
    registerOne d co true s = registerOne d co false s := by
  cases d with
  | mk nm eh kek r3 rc beh deps =>
    have h3r : r3 = false := by simpa [Descriptor.require3D] using h3
    subst h3r
    simp [registerOne]

/-- The three aggregate requirements, read as "does the set/flag record a
needed property", stay equal to the OR of the corresponding flag over the
dependency closures of all registered descriptors, across any successful
sequence of registrations. -/
theorem runRegs_inv :
    ∀ (steps : List (Descriptor × Bool)) (s0 s : CalcState),
      runRegs steps s0 = .ok s →
      s0.require_3D = s0.descriptors.any (closureAny Descriptor.require3D) →
      s0.explicit_hydrogens.hasTrue =
        s0.descriptors.any (closureAny Descriptor.explicitHydrogens) →
      s0.kekulizes.hasTrue = s0.descriptors.any (closureAny Descriptor.kekulize) →
      s.require_3D = s.descriptors.any (closureAny Descriptor.require3D) ∧
      s.explicit_hydrogens.hasTrue =
        s.descriptors.any (closureAny Descriptor.explicitHydrogens) ∧
      s.kekulizes.hasTrue = s.descriptors.any (closureAny Descriptor.kekulize) := by
  intro steps
  induction steps with
  | nil =>
    intro s0 s h h1 h2 h3
    have : s0 = s := by simpa [runRegs] using h
    subst this
    exact ⟨h1, h2, h3⟩
  | cons step rest ih =>
    obtain ⟨d, ig⟩ := step
    intro s0 s h h1 h2 h3
    rcases hreg : registerOne d false ig s0 with e1 | s1
    · rw [runRegs, hreg] at h
      exact absurd h (by simp)
    · rw [runRegs, hreg] at h
      have hstep : s1.require_3D = s1.descriptors.any (closureAny Descriptor.require3D) ∧
          s1.explicit_hydrogens.hasTrue =
            s1.descriptors.any (closureAny Descriptor.explicitHydrogens) ∧
          s1.kekulizes.hasTrue = s1.descriptors.any (closureAny Descriptor.kekulize) := by
        have hdirect : registerOne d false false s0 = .ok s1 →
            s1.require_3D = s1.descriptors.any (closureAny Descriptor.require3D) ∧
            s1.explicit_hydrogens.hasTrue =
              s1.descriptors.any (closureAny Descriptor.explicitHydrogens) ∧
            s1.kekulizes.hasTrue = s1.descriptors.any (closureAny Descriptor.kekulize) := by
          intro hreg0
          cases hfresh : lookupName d.name s0.name_dict with
          | some old =>
            rw [registerOne_duplicate_spec d s0 old hfresh] at hreg0
            exact absurd hreg0 (by simp)
          | none =>
            obtain ⟨t, ht, d1, n1, r1, e1, k1⟩ := registerOne_direct_spec d s0 hfresh
            rw [ht] at hreg0
            have : t = s1 := by simpa using hreg0
            subst this
            refine ⟨?_, ?_, ?_⟩
            · rw [r1, d1, h1]
              simp [List.any_append]
            · rw [e1, d1, h2]
              simp [List.any_append]
            · rw [k1, d1, h3]
              simp [List.any_append]
        cases ig with
        | false => exact hdirect hreg
        | true =>
          cases h3d : d.require3D with
          | true =>
            have := registerOne_skip_3D d false s0 h3d
            rw [this] at hreg
            have : s0 = s1 := by simpa using hreg
            subst this
            exact ⟨h1, h2, h3⟩
          | false =>
            rw [registerOne_ignore_no3D d false s0 h3d] at hreg
            exact hdirect hreg
      exact ih s1 s h hstep.1 hstep.2.1 hstep.2.2

/-- Claim C3: registering a descriptor whose canonical name is already
registered raises DuplicatedDescriptorName; a check-only (dependency-only)
registration never raises and never adds the unit to the output sequence or
the name lookup (so registering a unit both directly and as a
dependency-only registration raises nothing, in either order); and a direct
registration under a fresh name always succeeds. -/
theorem duplicate_name_registration (d : Descriptor) (s : CalcState) (old : Descriptor)
    (hdup : lookupName d.name s.name_dict = some old) :
    registerOne d false false s = .error (.duplicatedDescriptorName d old) ∧
    (∀ (e : Descriptor) (b : Bool) (t : CalcState), ∃ u,
        registerOne e true b t = .ok u ∧ u.descriptors = t.descriptors ∧
        u.name_dict = t.name_dict) ∧
    (∀ (e : Descriptor) (t : CalcState), lookupName e.name t.name_dict = none →
        ∃ u, registerOne e false false t = .ok u) := by
  refine ⟨registerOne_duplicate_spec d s old hdup, ?_, ?_⟩
  · intro e b t
    cases b with
    | false =>
      obtain ⟨u, hu, h1, h2, _, _, _⟩ := registerOne_check_spec (sizeOf e) e (le_refl _) t
      exact ⟨u, hu, h1, h2⟩
    | true =>
      cases h3 : e.require3D with
      | true => exact ⟨t, registerOne_skip_3D e true t h3, rfl, rfl⟩
      | false =>
        rw [registerOne_ignore_no3D e true t h3]
        obtain ⟨u, hu, h1, h2, _, _, _⟩ := registerOne_check_spec (sizeOf e) e (le_refl _) t
        exact ⟨u, hu, h1, h2⟩
  · intro e t hfresh
    obtain ⟨u, hu, _⟩ := registerOne_direct_spec e t hfresh
    exact ⟨u, hu⟩

/-- Witness for C3 at a concrete input: registering exM twice directly
raises the duplicate-name error. -/
theorem duplicate_name_registration_witness :
    registerOne exM false false
      ⟨[exM], [("M", exM)], ⟨true, false⟩, ⟨false, true⟩, false⟩ =
      .error (.duplicatedDescriptorName exM exM) :=
  (duplicate_name_registration exM
    ⟨[exM], [("M", exM)], ⟨true, false⟩, ⟨false, true⟩, false⟩ exM rfl).1

/-- Claim C4 as amended: after any successful sequence of registrations
from the initial state, the aggregate require_3D flag is true exactly when
some registered unit or some unit transitively reachable through dependency
maps declares require_3D (first conjunct); under ignore_3D=True only a
top-level unit whose own require_3D is true is silently skipped,
contributing nothing to the flag or the output sequence (second conjunct).
A requires-3D unit that sits in the dependency closure of a registered
non-3D unit is not skipped and does contribute to the flag (see the
counterexample). -/
theorem require3D_flag_amended (steps : List (Descriptor × Bool)) (s : CalcState)
    (h : runRegs steps initCalcState = .ok s) :
    s.require_3D = s.descriptors.any (closureAny Descriptor.require3D) ∧
    (∀ (d : Descriptor) (t : CalcState), d.require3D = true →
      registerOne d false true t = .ok t) :=
  ⟨(runRegs_inv steps initCalcState s h rfl rfl rfl).1,
   fun d t h3 => registerOne_skip_3D d false t h3⟩

/-- Witness for the amended C4 theorem at a concrete input: registering
exB2 (not 3D, with 3D dependency exC3) under ignore_3D=True leaves the flag
true, matching the OR over the closure; and a 3D unit itself is skipped. -/
theorem require3D_flag_amended_witness :
    (true : Bool) = [exB2].any (closureAny Descriptor.require3D) ∧
    registerOne exC3 false true initCalcState = .ok initCalcState := by
  have h := require3D_flag_amended [(exB2, true)]
    ⟨[exB2], [("B2", exB2)], ⟨false, true⟩, ⟨false, true⟩, true⟩ rfl
  exact ⟨h.1, h.2 exC3 initCalcState rfl⟩

/-- Claim C7: after any successful sequence of registrations from the
initial state, each aggregate requirement — needs explicit hydrogens (True
a member of the _explicit_hydrogens set), needs kekulized form (True a
member of the _kekulizes set), needs 3D (the _require_3D boolean) — equals
the OR of the corresponding unit flag over every registered descriptor and
every descriptor transitively reachable through dependency maps, including
dependency-only units that never appear in the output sequence. -/
theorem aggregate_flags_or_over_reachable (steps : List (Descriptor × Bool))
    (s : CalcState) (h : runRegs steps initCalcState = .ok s) :
    s.explicit_hydrogens.hasTrue =
      s.descriptors.any (closureAny Descriptor.explicitHydrogens) ∧
    s.kekulizes.hasTrue = s.descriptors.any (closureAny Descriptor.kekulize) ∧
    s.require_3D = s.descriptors.any (closureAny Descriptor.require3D) := by
  have hinv := runRegs_inv steps initCalcState s h rfl rfl rfl
  exact ⟨hinv.2.1, hinv.2.2, hinv.1⟩

/-- Witness for C7 at a concrete input: after registering exM (which needs
explicit hydrogens), the explicit-hydrogens aggregate is true and equals
the closure OR; the other two stay false. -/
theorem aggregate_flags_or_over_reachable_witness :
    (true : Bool) = [exM].any (closureAny Descriptor.explicitHydrogens) ∧
    (false : Bool) = [exM].any (closureAny Descriptor.kekulize) ∧
    (false : Bool) = [exM].any (closureAny Descriptor.require3D) :=
  aggregate_flags_or_over_reachable [(exM, false)]
    ⟨[exM], [("M", exM)], ⟨true, false⟩, ⟨false, true⟩, false⟩ rfl

end Mordred
